import Mathlib

/-!
Verification of the GoViet-IME Vietnamese composition engine.

This file shallowly embeds the Go engine (package `engine`:
`composition.go`, `telex.go`, `unicode.go`, the validator and the
configuration defaults) into Lean and proves or refutes the frozen
claims about it.  Strings are modelled as `List Char` (Go strings are
processed rune-by-rune throughout the engine).  The embedding follows
the source functions line by line; definitions written from the
specification's wording (for refinement comparisons) are marked as such
in their doc comments.
-/

namespace GoViet

/-- Vietnamese tone marks, mirroring the Go `ToneMark` enumeration. -/
inductive ToneMark where
  | none | sac | huyen | hoi | nga | nang
deriving DecidableEq, Repr

/-- Vietnamese vowel modifications, mirroring the Go `VowelMark` enumeration. -/
inductive VowelMark where
  | none | hat | breve | horn | dbar
deriving DecidableEq, Repr

/-- Kinds of transformation tracked for double-key revert (`TransformType`). -/
inductive TransformType where
  | none | tone | vowelMark | stroke | wAsVowel
deriving DecidableEq, Repr

/-- The zero-width-space break marker inserted on vowel-mark reverts. -/
def breakMarker : Char := Char.ofNat 0x200B

/-- `unicode.ToLower`, restricted to the characters the engine works with
(ASCII letters and the Vietnamese marked/stroked letters); identity
elsewhere. -/
def lowerChar (c : Char) : Char :=
  if 'A' ≤ c ∧ c ≤ 'Z' then Char.ofNat (c.toNat + 32)
  else if c = 'Đ' then 'đ'
  else if c = 'Ă' then 'ă'
  else if c = 'Â' then 'â'
  else if c = 'Ê' then 'ê'
  else if c = 'Ô' then 'ô'
  else if c = 'Ơ' then 'ơ'
  else if c = 'Ư' then 'ư'
  else c

/-- `unicode.ToUpper`, restricted to the same character repertoire. -/
def upperChar (c : Char) : Char :=
  if 'a' ≤ c ∧ c ≤ 'z' then Char.ofNat (c.toNat - 32)
  else if c = 'đ' then 'Đ'
  else if c = 'ă' then 'Ă'
  else if c = 'â' then 'Â'
  else if c = 'ê' then 'Ê'
  else if c = 'ô' then 'Ô'
  else if c = 'ơ' then 'Ơ'
  else if c = 'ư' then 'Ư'
  else c

/-- `unicode.IsUpper`, restricted to the same character repertoire. -/
def isUpperChar (c : Char) : Bool :=
  ('A' ≤ c ∧ c ≤ 'Z') ∨ c ∈ ['Đ', 'Ă', 'Â', 'Ê', 'Ô', 'Ơ', 'Ư']

/-- `isVietnameseVowelRune` from `composition.go`. -/
def isVietnameseVowelRune (c : Char) : Bool :=
  lowerChar c ∈ ['a', 'ă', 'â', 'e', 'ê', 'i', 'o', 'ô', 'ơ', 'u', 'ư', 'y']

/-- `isVietnameseConsonantRune` from `composition.go`. -/
def isVietnameseConsonantRune (c : Char) : Bool :=
  lowerChar c ∈ ['b', 'c', 'd', 'đ', 'g', 'h', 'k', 'l', 'm', 'n', 'p', 'q',
    'r', 's', 't', 'v', 'x']

/-- `isMarkedVowel` from `unicode.go`: a vowel carrying a diacritic mark
(not a tone). -/
def isMarkedVowel (c : Char) : Bool :=
  c ∈ ['ă', 'Ă', 'â', 'Â', 'ê', 'Ê', 'ô', 'Ô', 'ơ', 'Ơ', 'ư', 'Ư']

/-- `isTelexModifier` from `composition.go`. -/
def isTelexModifier (c : Char) : Bool :=
  c ∈ ['s', 'S', 'f', 'F', 'r', 'R', 'x', 'X', 'j', 'J', 'z', 'Z', 'w', 'W']

/-- `isValidCoda` from `composition.go` (the `validCodas` map). -/
def isValidCoda (s : List Char) : Bool :=
  s.map lowerChar ∈
    [['c'], ['c', 'h'], ['m'], ['n'], ['n', 'g'], ['n', 'h'], ['p'], ['t']]

/-- A parsed Vietnamese syllable (`Syllable` in `types.go`). -/
structure Syllable where
  raw : List Char := []
  onset : List Char := []
  nucleus : List Char := []
  coda : List Char := []
  toneMark : ToneMark := .none
  vowelMark : VowelMark := .none
  consumed : Nat := 0
  consumedModifiers : Nat := 0
deriving DecidableEq, Repr

/-- The single-slot undo record (`LastTransform`). -/
structure LastTransform where
  key : Char := ' '
  type : TransformType := .none
  original : List Char := []
deriving DecidableEq, Repr

/-- The per-session engine state: the raw buffer, its parsed syllable and
the last-transform slot (`CompositionEngine` + `CompositionBuffer`,
specialised to the default configuration: Telex input, Unicode output,
validation, double-key revert and w-as-vowel all enabled). -/
structure EngineState where
  raw : List Char := []
  syllable : Syllable := {}
  lastTransform : LastTransform := {}
deriving DecidableEq, Repr

/-- The reset/initial session state (`NewCompositionBuffer` + cleared
`lastTransform`). -/
def initState : EngineState := {}

/-- A key event from the host (`KeyEvent`). -/
structure KeyEvent where
  keySym : Nat
  modifiers : Nat
deriving DecidableEq, Repr

/-- The engine's reply to one key event (`ProcessResult`). -/
structure ProcessResult where
  handled : Bool := false
  commitText : List Char := []
  preedit : List Char := []
deriving DecidableEq, Repr

/-! ### Telex input method (`telex.go`) -/

/-- `telexToneKeys`: the Telex tone-key table (keyed by lowercased key;
`z` maps to the explicit tone-removal entry). -/
def telexToneKeys (c : Char) : Option ToneMark :=
  match c with
  | 's' => some .sac
  | 'f' => some .huyen
  | 'r' => some .hoi
  | 'x' => some .nga
  | 'j' => some .nang
  | 'z' => some .none
  | _ => Option.none

/-- `TelexMethod.IsToneKey`. -/
def telexIsToneKey (c : Char) : Bool :=
  (telexToneKeys (lowerChar c)).isSome

/-- `TelexMethod.GetToneMark`. -/
def telexGetToneMark (c : Char) : ToneMark :=
  (telexToneKeys (lowerChar c)).getD .none

/-- `telexHornPatterns`: the horn/breve targets of the `w` modifier. -/
def telexHornPatterns (c : Char) : Option Char :=
  match c with
  | 'o' => some 'ơ'
  | 'O' => some 'Ơ'
  | 'u' => some 'ư'
  | 'U' => some 'Ư'
  | 'a' => some 'ă'
  | 'A' => some 'Ă'
  | _ => Option.none

/-- `telexDoublePatterns`: the 16-entry double-letter table
(`aa/AA/Aa/aA → â/Â/Â/â`, likewise for `e`, `o` and `d`); the result's
case follows the first letter of the pair. -/
def telexDoublePatterns (lastRaw c : Char) : Option (Char × VowelMark) :=
  if lowerChar lastRaw = 'a' ∧ lowerChar c = 'a' then
    some (if lastRaw = 'A' then 'Â' else 'â', .hat)
  else if lowerChar lastRaw = 'e' ∧ lowerChar c = 'e' then
    some (if lastRaw = 'E' then 'Ê' else 'ê', .hat)
  else if lowerChar lastRaw = 'o' ∧ lowerChar c = 'o' then
    some (if lastRaw = 'O' then 'Ô' else 'ô', .hat)
  else if lowerChar lastRaw = 'd' ∧ lowerChar c = 'd' then
    some (if lastRaw = 'D' then 'Đ' else 'đ', .dbar)
  else Option.none

/-- `TelexMethod.ProcessChar`: interpret one key against the current
syllable, returning (transformed text, tone, vowel mark, consumed). -/
def telexProcessChar (c : Char) (cur : Syllable) :
    List Char × ToneMark × VowelMark × Bool :=
  -- tone keys apply only when a nucleus exists
  if telexIsToneKey c ∧ cur.nucleus ≠ [] then
    ([], telexGetToneMark c, .none, true)
  else if lowerChar c = 'w' ∧ cur.nucleus ≠ [] ∧
      (telexHornPatterns (cur.nucleus.getLastD ' ')).isSome then
    ([(telexHornPatterns (cur.nucleus.getLastD ' ')).getD ' '], .none, .horn, true)
  else if lowerChar c = 'w' ∧ cur.raw ≠ [] ∧
      (telexHornPatterns (cur.raw.getLastD ' ')).isSome then
    ([(telexHornPatterns (cur.raw.getLastD ' ')).getD ' '], .none, .horn, true)
  else
    match cur.raw.getLast? with
    | some lastRaw =>
      match telexDoublePatterns lastRaw c with
      | some (res, mark) => ([res], .none, mark, true)
      | Option.none => ([c], .none, .none, false)
    | Option.none => ([c], .none, .none, false)

/-! ### Syllable validator (`validation.go`) -/

/-- The result of `ValidateVietnamese`. -/
structure ValidationResult where
  valid : Bool
  reason : String := ""
  hasVowel : Bool := false
  initialValid : Bool := false
  finalValid : Bool := false
  spellingOK : Bool := false
deriving DecidableEq, Repr

/-- The `validInitials` map keys: 17 single consonants, 10 digraphs and
the trigraph `ngh`. -/
def validInitials : List (List Char) :=
  [['b'], ['c'], ['d'], ['đ'], ['g'], ['h'], ['k'], ['l'], ['m'], ['n'],
   ['p'], ['q'], ['r'], ['s'], ['t'], ['v'], ['x'],
   ['c', 'h'], ['g', 'h'], ['g', 'i'], ['k', 'h'], ['n', 'g'], ['n', 'h'],
   ['p', 'h'], ['q', 'u'], ['t', 'h'], ['t', 'r'],
   ['n', 'g', 'h']]

/-- The `validFinals` map keys: final consonants and final semivowels. -/
def validFinals : List (List Char) :=
  [['c'], ['m'], ['n'], ['p'], ['t'],
   ['c', 'h'], ['n', 'g'], ['n', 'h'],
   ['i'], ['y'], ['o'], ['u']]

/-- The `spellingRules` map keys: forbidden (onset ++ first vowel)
combinations. -/
def spellingRules : List (List Char) :=
  [['c', 'e'], ['c', 'i'], ['c', 'y'],
   ['k', 'a'], ['k', 'o'], ['k', 'u'],
   ['g', 'e'],
   ['n', 'g', 'e'], ['n', 'g', 'i'],
   ['g', 'h', 'a'], ['g', 'h', 'o'], ['g', 'h', 'u'],
   ['n', 'g', 'h', 'a'], ['n', 'g', 'h', 'o'], ['n', 'g', 'h', 'u']]

/-- `strings.ReplaceAll(s, "đ", "d")` specialised to single characters. -/
def replaceDJ (c : Char) : Char :=
  if c = 'đ' then 'd' else c

/-- The single-consonant fallback switch inside `isValidInitial`. -/
def singleConsonantFallback (s : List Char) : Bool :=
  match s with
  | [r] => r ∈ ['b', 'c', 'd', 'g', 'h', 'k', 'l', 'm', 'n', 'p', 'q',
      'r', 's', 't', 'v', 'x']
  | _ => false

/-- `isValidInitial` from `validation.go`: the empty string, the
`validInitials` map lookup, and the single-consonant fallback switch
(the Go function's three early returns, as a disjunction). -/
def isValidInitial (s : List Char) : Bool :=
  s = [] ∨ s ∈ validInitials ∨ singleConsonantFallback s = true

/-- `ValidateVietnamese` from `validation.go`: checks nucleus presence,
onset, coda and the spelling rules, in that order. -/
def ValidateVietnamese (onset nucleus coda : List Char) : ValidationResult :=
  if nucleus = [] then
    { valid := false, reason := "no_vowel" }
  else
    let onsetLower := (onset.map lowerChar).map replaceDJ
    if onset ≠ [] ∧ ¬ isValidInitial onsetLower then
      { valid := false, reason := "invalid_initial", hasVowel := true }
    else if coda ≠ [] ∧ coda.map lowerChar ∉ validFinals then
      { valid := false, reason := "invalid_final", hasVowel := true,
        initialValid := true }
    else if onset ≠ [] ∧
        onset.map lowerChar ++ [lowerChar (nucleus.headD ' ')] ∈ spellingRules then
      { valid := false, reason := "spelling_rule_violation", hasVowel := true,
        initialValid := true, finalValid := true }
    else
      { valid := true, hasVowel := true, initialValid := true,
        finalValid := true, spellingOK := true }

/-! ### Unicode output format (`unicode.go`) -/

/-- The `unicodeVowelTones` table: for each base vowel, its precomposed
code point under every tone. `Option.none` for characters outside the
table. -/
def unicodeVowelTones (c : Char) : Option (ToneMark → Char) :=
  match c with
  | 'a' => some fun t => match t with
    | .none => 'a' | .sac => 'á' | .huyen => 'à' | .hoi => 'ả'
    | .nga => 'ã' | .nang => 'ạ'
  | 'A' => some fun t => match t with
    | .none => 'A' | .sac => 'Á' | .huyen => 'À' | .hoi => 'Ả'
    | .nga => 'Ã' | .nang => 'Ạ'
  | 'ă' => some fun t => match t with
    | .none => 'ă' | .sac => 'ắ' | .huyen => 'ằ' | .hoi => 'ẳ'
    | .nga => 'ẵ' | .nang => 'ặ'
  | 'Ă' => some fun t => match t with
    | .none => 'Ă' | .sac => 'Ắ' | .huyen => 'Ằ' | .hoi => 'Ẳ'
    | .nga => 'Ẵ' | .nang => 'Ặ'
  | 'â' => some fun t => match t with
    | .none => 'â' | .sac => 'ấ' | .huyen => 'ầ' | .hoi => 'ẩ'
    | .nga => 'ẫ' | .nang => 'ậ'
  | 'Â' => some fun t => match t with
    | .none => 'Â' | .sac => 'Ấ' | .huyen => 'Ầ' | .hoi => 'Ẩ'
    | .nga => 'Ẫ' | .nang => 'Ậ'
  | 'e' => some fun t => match t with
    | .none => 'e' | .sac => 'é' | .huyen => 'è' | .hoi => 'ẻ'
    | .nga => 'ẽ' | .nang => 'ẹ'
  | 'E' => some fun t => match t with
    | .none => 'E' | .sac => 'É' | .huyen => 'È' | .hoi => 'Ẻ'
    | .nga => 'Ẽ' | .nang => 'Ẹ'
  | 'ê' => some fun t => match t with
    | .none => 'ê' | .sac => 'ế' | .huyen => 'ề' | .hoi => 'ể'
    | .nga => 'ễ' | .nang => 'ệ'
  | 'Ê' => some fun t => match t with
    | .none => 'Ê' | .sac => 'Ế' | .huyen => 'Ề' | .hoi => 'Ể'
    | .nga => 'Ễ' | .nang => 'Ệ'
  | 'i' => some fun t => match t with
    | .none => 'i' | .sac => 'í' | .huyen => 'ì' | .hoi => 'ỉ'
    | .nga => 'ĩ' | .nang => 'ị'
  | 'I' => some fun t => match t with
    | .none => 'I' | .sac => 'Í' | .huyen => 'Ì' | .hoi => 'Ỉ'
    | .nga => 'Ĩ' | .nang => 'Ị'
  | 'o' => some fun t => match t with
    | .none => 'o' | .sac => 'ó' | .huyen => 'ò' | .hoi => 'ỏ'
    | .nga => 'õ' | .nang => 'ọ'
  | 'O' => some fun t => match t with
    | .none => 'O' | .sac => 'Ó' | .huyen => 'Ò' | .hoi => 'Ỏ'
    | .nga => 'Õ' | .nang => 'Ọ'
  | 'ô' => some fun t => match t with
    | .none => 'ô' | .sac => 'ố' | .huyen => 'ồ' | .hoi => 'ổ'
    | .nga => 'ỗ' | .nang => 'ộ'
  | 'Ô' => some fun t => match t with
    | .none => 'Ô' | .sac => 'Ố' | .huyen => 'Ồ' | .hoi => 'Ổ'
    | .nga => 'Ỗ' | .nang => 'Ộ'
  | 'ơ' => some fun t => match t with
    | .none => 'ơ' | .sac => 'ớ' | .huyen => 'ờ' | .hoi => 'ở'
    | .nga => 'ỡ' | .nang => 'ợ'
  | 'Ơ' => some fun t => match t with
    | .none => 'Ơ' | .sac => 'Ớ' | .huyen => 'Ờ' | .hoi => 'Ở'
    | .nga => 'Ỡ' | .nang => 'Ợ'
  | 'u' => some fun t => match t with
    | .none => 'u' | .sac => 'ú' | .huyen => 'ù' | .hoi => 'ủ'
    | .nga => 'ũ' | .nang => 'ụ'
  | 'U' => some fun t => match t with
    | .none => 'U' | .sac => 'Ú' | .huyen => 'Ù' | .hoi => 'Ủ'
    | .nga => 'Ũ' | .nang => 'Ụ'
  | 'ư' => some fun t => match t with
    | .none => 'ư' | .sac => 'ứ' | .huyen => 'ừ' | .hoi => 'ử'
    | .nga => 'ữ' | .nang => 'ự'
  | 'Ư' => some fun t => match t with
    | .none => 'Ư' | .sac => 'Ứ' | .huyen => 'Ừ' | .hoi => 'Ử'
    | .nga => 'Ữ' | .nang => 'Ự'
  | 'y' => some fun t => match t with
    | .none => 'y' | .sac => 'ý' | .huyen => 'ỳ' | .hoi => 'ỷ'
    | .nga => 'ỹ' | .nang => 'ỵ'
  | 'Y' => some fun t => match t with
    | .none => 'Y' | .sac => 'Ý' | .huyen => 'Ỳ' | .hoi => 'Ỷ'
    | .nga => 'Ỹ' | .nang => 'Ỵ'
  | _ => Option.none

/-- The `unicodeVowelMarks` table: `(base char, vowel mark) → marked char`. -/
def unicodeVowelMarks (c : Char) (m : VowelMark) : Option Char :=
  match c, m with
  | 'a', .breve => some 'ă'
  | 'a', .hat => some 'â'
  | 'A', .breve => some 'Ă'
  | 'A', .hat => some 'Â'
  | 'e', .hat => some 'ê'
  | 'E', .hat => some 'Ê'
  | 'o', .hat => some 'ô'
  | 'o', .horn => some 'ơ'
  | 'O', .hat => some 'Ô'
  | 'O', .horn => some 'Ơ'
  | 'u', .horn => some 'ư'
  | 'U', .horn => some 'Ư'
  | 'd', .dbar => some 'đ'
  | 'D', .dbar => some 'Đ'
  | _, _ => Option.none

/-- `UnicodeFormat.ApplyTone`: look up the (vowel, tone) pair; unknown
letters fall back to the letter unchanged. -/
def ApplyTone (vowel : Char) (tone : ToneMark) : List Char :=
  match unicodeVowelTones vowel with
  | some f => [f tone]
  | Option.none => [vowel]

/-- `findTonePosition` from `unicode.go`: the index within the nucleus
that receives the tone diacritic. -/
def findTonePosition (nucleus : List Char) (coda : List Char) : Nat :=
  match nucleus with
  | [] => 0
  | [_] => 0
  | _ =>
    -- Rule 1: marked vowels get the tone
    match nucleus.findIdx? (fun r => isMarkedVowel r) with
    | some i => i
    | Option.none =>
      let n := nucleus.length
      let first := nucleus.headD ' '
      let second := (nucleus.drop 1).headD ' '
      -- Rule 2: oa/oă/oe and uy without coda → second vowel
      if n = 2 ∧ coda = [] ∧ (first = 'o' ∨ first = 'O') ∧
          second ∈ ['a', 'A', 'ă', 'Ă', 'e', 'E'] then 1
      else if n = 2 ∧ coda = [] ∧ (first = 'u' ∨ first = 'U') ∧
          (second = 'y' ∨ second = 'Y') then 1
      -- Rule 3: ia → first vowel (old rule); ua/ưa → second vowel
      else if 2 ≤ n ∧ coda = [] ∧ (first = 'i' ∨ first = 'I') ∧
          (second = 'a' ∨ second = 'A') then 0
      else if 2 ≤ n ∧ coda = [] ∧
          (first = 'u' ∨ first = 'U' ∨ first = 'ư' ∨ first = 'Ư') ∧
          (second = 'a' ∨ second = 'A') then 1
      -- Rule 4: with coda
      else if coda ≠ [] ∧ n = 2 then 0
      else if coda ≠ [] ∧ 3 ≤ n then 1
      -- Rule 5: two vowels, no coda → first vowel
      else if n = 2 then 0
      -- Rule 6: three or more vowels, no coda → middle vowel
      else if 3 ≤ n then 1
      else 0

/-- The nucleus walk inside `UnicodeFormat.Compose`: apply the vowel
mark to each letter, and the tone at the tone position. -/
def composeNucleus (vmark : VowelMark) (tone : ToneMark) (tonePos : Nat) :
    Nat → List Char → List Char
  | _, [] => []
  | i, r :: rest =>
    let modified := (unicodeVowelMarks r vmark).getD r
    (if i = tonePos then ApplyTone modified tone else [modified]) ++
      composeNucleus vmark tone tonePos (i + 1) rest

/-- `UnicodeFormat.Compose`: emit onset, the marked-and-toned nucleus and
the coda; syllables without a nucleus fall back to their raw field. -/
def Compose (syl : Syllable) : List Char :=
  if syl.nucleus = [] then syl.raw
  else
    syl.onset ++
      composeNucleus syl.vowelMark syl.toneMark
        (findTonePosition syl.nucleus syl.coda) 0 syl.nucleus ++
      syl.coda

/-! ### The parser (`updateSyllableStructure`, `composition.go`) -/

/-- The onset-phase loop: greedy consonants, `dd → đ`, break markers and
the pure tone letters `f j z` are skipped. Returns the onset and the
unconsumed remainder. -/
def parseOnset : List Char → List Char × List Char
  | [] => ([], [])
  | r :: rest =>
    if isVietnameseVowelRune r then ([], r :: rest)
    else if r = breakMarker then parseOnset rest
    else if (r = 'd' ∨ r = 'D') ∧ rest.headD ' ' ∈ ['d', 'D'] then
      match rest with
      | _ :: rest2 =>
        let p := parseOnset rest2
        ((if r = 'd' then 'đ' else 'Đ') :: p.1, p.2)
      | [] => ([], [])
    else if r ∈ ['f', 'F', 'j', 'J', 'z', 'Z'] then parseOnset rest
    else if isVietnameseConsonantRune r then
      let p := parseOnset rest
      (r :: p.1, p.2)
    else ([], r :: rest)

/-- The double-vowel targets of the nucleus loop (`aa → â` etc.). -/
def doubleVowelTarget (c : Char) : Option Char :=
  match c with
  | 'a' => some 'â'
  | 'e' => some 'ê'
  | 'o' => some 'ô'
  | _ => Option.none

/-- The `w`-modifier transformation inside the nucleus loop: horn/breve
on the last nucleus vowel, with the `uo + w → ươ` double promotion.
Returns the updated nucleus if a transformation applied. -/
def hornOnNucleus (nuc : List Char) : Option (List Char) :=
  match nuc.getLast? with
  | Option.none => Option.none
  | some last =>
    let front := nuc.dropLast
    match lowerChar last with
    | 'a' =>
      some (front ++ [if isUpperChar last then 'Ă' else 'ă'])
    | 'o' =>
      let front' :=
        match front.getLast? with
        | some u =>
          if lowerChar u = 'u' then
            front.dropLast ++ [if isUpperChar u then 'Ư' else 'ư']
          else front
        | Option.none => front
      some (front' ++ [if isUpperChar last then 'Ơ' else 'ơ'])
    | 'u' =>
      some (front ++ [if isUpperChar last then 'Ư' else 'ư'])
    | _ => Option.none

/-- The nucleus-phase loop: vowels with inline `aa/ee/oo` promotion,
`w` as horn/breve modifier (or as the vowel `ư` when the nucleus is
still empty), break markers skipped. Returns the nucleus, the number of
consumed modifiers, and the remainder. -/
def parseNucleus (enableW : Bool) :
    List Char → List Char → Nat → List Char × Nat × List Char
  | [], nuc, mods => (nuc, mods, [])
  | [r], nuc, mods =>
    -- last character: no lookahead is possible
    if r = breakMarker then (nuc, mods, [])
    else if isVietnameseVowelRune r then (nuc ++ [r], mods, [])
    else if lowerChar r = 'w' then
      if nuc = [] ∧ enableW then
        ([if isUpperChar r then 'Ư' else 'ư'], mods + 1, [])
      else
        match hornOnNucleus nuc with
        | some nuc' => (nuc', mods + 1, [])
        | Option.none => (nuc, mods, [])
    else (nuc, mods, [r])
  | r :: r2 :: rest2, nuc, mods =>
    if r = breakMarker then parseNucleus enableW (r2 :: rest2) nuc mods
    else if isVietnameseVowelRune r then
      if lowerChar r2 = lowerChar r ∧ r2 ≠ breakMarker then
        match doubleVowelTarget (lowerChar r) with
        | some t =>
          parseNucleus enableW rest2
            (nuc ++ [if isUpperChar r then upperChar t else t]) mods
        | Option.none => parseNucleus enableW (r2 :: rest2) (nuc ++ [r]) mods
      else parseNucleus enableW (r2 :: rest2) (nuc ++ [r]) mods
    else if lowerChar r = 'w' then
      if nuc = [] ∧ enableW then
        parseNucleus enableW (r2 :: rest2)
          [if isUpperChar r then 'Ư' else 'ư'] (mods + 1)
      else
        match hornOnNucleus nuc with
        | some nuc' => parseNucleus enableW (r2 :: rest2) nuc' (mods + 1)
        | Option.none => parseNucleus enableW (r2 :: rest2) nuc mods
    else (nuc, mods, r :: r2 :: rest2)

/-- The coda-phase loop: prefer a two-letter coda (`ch ng nh`) over a
one-letter one. Returns the coda and the remainder. -/
def parseCoda : List Char → List Char → List Char × List Char
  | [], coda => (coda, [])
  | [r], coda =>
    if isVietnameseConsonantRune r then
      if isValidCoda [r] then (coda ++ [r], []) else (coda, [r])
    else (coda, [r])
  | r :: r2 :: rest2, coda =>
    if isVietnameseConsonantRune r then
      if isVietnameseConsonantRune r2 ∧ isValidCoda [r, r2] then
        parseCoda rest2 (coda ++ [r, r2])
      else if isValidCoda [r] then parseCoda (r2 :: rest2) (coda ++ [r])
      else (coda, r :: r2 :: rest2)
    else (coda, r :: r2 :: rest2)

/-- The contextual promotion after the coda is fixed: `ie + coda → iê`,
`uo + coda → uô`. -/
def promoteWithCoda (nucleus coda : List Char) : List Char :=
  match nucleus with
  | n0 :: n1 :: rest =>
    if coda ≠ [] then
      let first := lowerChar n0
      let second := lowerChar n1
      if first = 'i' ∧ second = 'e' then
        n0 :: (if isUpperChar n1 then 'Ê' else 'ê') :: rest
      else if first = 'u' ∧ second = 'o' then
        n0 :: (if isUpperChar n1 then 'Ô' else 'ô') :: rest
      else nucleus
    else nucleus
  | _ => nucleus

/-- The trailing skip of consumed modifier keys (the final loop of
`updateSyllableStructure`): step over input-method modifiers, at most
`mods` of them. -/
def skipConsumedModifiers (mods sofar : Nat) : List Char → List Char
  | [] => []
  | r :: rest =>
    if isTelexModifier r then
      if sofar < mods then skipConsumedModifiers mods (sofar + 1) rest
      else r :: rest
    else r :: rest

/-- `updateSyllableStructure`: re-parse the raw buffer into onset,
nucleus and coda, preserving the tone and vowel-mark tags, and record
how many code points were accounted for. Specialised to the default
configuration (`EnableWAsVowel = true`, Telex modifiers). -/
def updateSyllable (raw : List Char) (tone : ToneMark) (vmark : VowelMark) :
    Syllable :=
  if raw = [] then {}
  else
    let mods0 : Nat := if tone ≠ ToneMark.none then 1 else 0
    let p1 := parseOnset raw
    let p2 := parseNucleus true p1.2 [] 0
    let p3 := parseCoda p2.2.2 []
    let nucleus := promoteWithCoda p2.1 p3.1
    let consumedModifiers := mods0 + p2.2.1
    let rest4 := skipConsumedModifiers consumedModifiers 0 p3.2
    { raw := raw, toneMark := tone, vowelMark := vmark,
      onset := p1.1, nucleus := nucleus, coda := p3.1,
      consumed := raw.length - rest4.length,
      consumedModifiers := consumedModifiers }

/-! ### Composition controller (`composition.go`) -/

/-- The unparsed-suffix walk of `GetPreedit`: append raw characters past
`consumed`, skipping input-method modifiers while up to
`consumedModifiers` of them remain unaccounted. -/
def appendUnparsed (consumedMods : Nat) : List Char → Nat → List Char
  | [], _ => []
  | r :: rest, idx =>
    if isTelexModifier r ∧ idx < consumedMods then
      appendUnparsed consumedMods rest (idx + 1)
    else r :: appendUnparsed consumedMods rest idx

/-- `CompositionEngine.GetPreedit`: compose the parsed syllable, append
unparsed trailing characters, and filter out break markers. -/
def getPreedit (st : EngineState) : List Char :=
  if st.raw = [] then []
  else
    let syl := st.syllable
    let composed := Compose syl
    let composed :=
      if syl.consumed < st.raw.length then
        composed ++ appendUnparsed syl.consumedModifiers (st.raw.drop syl.consumed) 0
      else composed
    if composed ≠ [] then composed.filter (fun r => r ≠ breakMarker)
    else st.raw.filter (fun r => r ≠ breakMarker)

/-- `applyVowelMark`: record the vowel mark on the syllable and apply the
transformed letter to the onset (for `đ`) or the last nucleus vowel.
(The onset/nucleus edits are recomputed by the subsequent re-parse; the
function is ported faithfully nonetheless.) -/
def applyVowelMark (syl : Syllable) (mark : VowelMark) (transformed : List Char) :
    Syllable :=
  let syl := { syl with vowelMark := mark }
  if mark = .dbar ∧ transformed ≠ [] then
    if syl.onset ≠ [] then
      if syl.onset.getLastD ' ' = 'd' ∨ syl.onset.getLastD ' ' = 'D' then
        { syl with onset := syl.onset.dropLast ++ [transformed.headD ' '] }
      else syl
    else if syl.raw ≠ [] then
      if syl.raw.getLastD ' ' = 'd' ∨ syl.raw.getLastD ' ' = 'D' then
        { syl with raw := syl.raw.dropLast ++ [transformed.headD ' '] }
      else syl
    else syl
  else if transformed ≠ [] ∧ syl.nucleus ≠ [] then
    { syl with nucleus := syl.nucleus.dropLast ++ [transformed.headD ' '] }
  else syl

/-- `shouldTransform`: the buffer must already hold a nucleus and parse
as a valid Vietnamese syllable before a transformation is applied. -/
def shouldTransform (st : EngineState) : Bool :=
  st.syllable.nucleus ≠ [] ∧
    (ValidateVietnamese st.syllable.onset st.syllable.nucleus st.syllable.coda).valid

/-- Re-parse helper: update the state's syllable from its raw buffer,
preserving the tone and vowel-mark tags currently on the syllable. -/
def reparse (st : EngineState) : EngineState :=
  { st with syllable :=
      updateSyllable st.raw st.syllable.toneMark st.syllable.vowelMark }

/-- `checkDoubleKeyRevert`: if the same key is pressed again right after
a transformation, undo it (tone removal, break-marker insertion for
vowel marks and strokes, or literal `w`). Returns the updated state if a
revert was performed. -/
def checkDoubleKeyRevert (st : EngineState) (c : Char) : Option EngineState :=
  if st.lastTransform.type = TransformType.none then Option.none
  else if lowerChar st.lastTransform.key ≠ lowerChar c then Option.none
  else if st.raw = [] then Option.none
  else
    let newRaw := st.raw.dropLast
    match st.lastTransform.type with
    | .tone =>
      some (reparse
        { st with
          raw := newRaw ++ [c]
          syllable := { st.syllable with toneMark := .none }
          lastTransform := {} })
    | .vowelMark =>
      some (reparse
        { st with
          raw := newRaw ++ [breakMarker, c]
          syllable := { st.syllable with vowelMark := .none }
          lastTransform := {} })
    | .stroke =>
      some (reparse
        { st with
          raw := newRaw ++ [breakMarker, c]
          syllable := { st.syllable with vowelMark := .none }
          lastTransform := {} })
    | .wAsVowel =>
      -- `revertWAsVowel`: treat the `w` as a literal this time
      some (reparse
        { st with
          raw := st.raw ++ [c]
          syllable := { st.syllable with nucleus := [], vowelMark := .none }
          lastTransform := {} })
    | .none => Option.none

/-- `tryWAsVowel`: admit a bare `w` as the vowel `ư` when the resulting
syllable would validate. -/
def tryWAsVowel (st : EngineState) (c : Char) : Option EngineState :=
  if st.syllable.nucleus ≠ [] then Option.none
  else
    let testNucleus : List Char := [if isUpperChar c then 'Ư' else 'ư']
    if ¬ (ValidateVietnamese st.syllable.onset testNucleus st.syllable.coda).valid then
      Option.none
    else
      some (reparse
        { st with
          raw := st.raw ++ [c]
          syllable := { st.syllable with nucleus := testNucleus, vowelMark := .horn }
          lastTransform := { key := c, type := .wAsVowel } })

/-- `processCharInternal`: append a literal character and re-parse. -/
def processCharInternal (st : EngineState) (c : Char) : EngineState :=
  reparse { st with raw := st.raw ++ [c] }

/-- `processKeyInternal`: the per-character pipeline — double-key revert,
translator dispatch, validation gate, tone toggling, vowel-mark
application, w-as-vowel, or literal append. Specialised to the default
configuration (validation, double-key revert and w-as-vowel enabled,
Telex method). -/
def processKeyInternal (st : EngineState) (c : Char) : EngineState :=
  match checkDoubleKeyRevert st c with
  | some st' => st'
  | Option.none =>
    let tr := telexProcessChar c st.syllable
    let transformed := tr.1
    let tone := tr.2.1
    let vowelMark := tr.2.2.1
    let consumed := tr.2.2.2
    if consumed then
      if ¬ shouldTransform st then
        -- validation failed: treat as a literal character
        { (reparse { st with raw := st.raw ++ [c] }) with lastTransform := {} }
      else if telexIsToneKey c then
        let newTone :=
          if st.syllable.toneMark = tone ∧ tone ≠ ToneMark.none then ToneMark.none
          else tone
        reparse
          { st with
            raw := st.raw ++ [c]
            syllable := { st.syllable with toneMark := newTone }
            lastTransform := { key := c, type := .tone } }
      else if vowelMark ≠ VowelMark.none ∨ transformed ≠ [] then
        let lt : LastTransform :=
          if vowelMark = .dbar then
            { key := c, type := .stroke, original := st.syllable.onset }
          else
            { key := c, type := .vowelMark, original := st.syllable.nucleus }
        reparse
          { st with
            raw := st.raw ++ [c]
            syllable := applyVowelMark st.syllable vowelMark transformed
            lastTransform := lt }
      else
        reparse { st with raw := st.raw ++ [c] }
    else
      if lowerChar c = 'w' then
        match tryWAsVowel st c with
        | some st' => st'
        | Option.none =>
          { (processCharInternal st c) with lastTransform := {} }
      else
        { (processCharInternal st c) with lastTransform := {} }

/-- Replay a character sequence through the pipeline from a fresh buffer
(`Reset` followed by `processKeyInternal` on each character). -/
def replay (l : List Char) : EngineState :=
  l.foldl processKeyInternal initState

/-- `handleBackspace`: pop one code point from raw and rebuild the state
by replaying the remainder from a fresh buffer. -/
def handleBackspace (st : EngineState) : ProcessResult × EngineState :=
  if st.raw = [] then ({ handled := false }, st)
  else
    let st' := replay st.raw.dropLast
    ({ handled := true, preedit := getPreedit st' }, st')

/-- The keysym constants from `types.go`. -/
def KeyBackspace : Nat := 0xff08
/-- Enter / Return. -/
def KeyReturn : Nat := 0xff0d
/-- Escape. -/
def KeyEscape : Nat := 0xff1b
/-- Space. -/
def KeySpace : Nat := 0x0020
/-- Tab. -/
def KeyTab : Nat := 0xff09
/-- Delete. -/
def KeyDelete : Nat := 0xffff
/-- The Control modifier bit. -/
def ModControl : Nat := 4
/-- The Alt (Mod1) modifier bit. -/
def ModMod1 : Nat := 8

/-- `handleSpecialKey`: Backspace, Space, Enter, Escape, Tab and Delete
handling; returns `Option.none` when the key is not consumed here. -/
def handleSpecialKey (st : EngineState) (ev : KeyEvent) :
    Option (ProcessResult × EngineState) :=
  if ev.keySym = KeyBackspace then some (handleBackspace st)
  else if ev.keySym = KeySpace then
    some ({ handled := true, commitText := getPreedit st ++ [' '] }, initState)
  else if ev.keySym = KeyReturn then
    if getPreedit st ≠ [] then
      some ({ handled := true, commitText := getPreedit st }, initState)
    else Option.none
  else if ev.keySym = KeyEscape then
    some ({ handled := true }, initState)
  else if ev.keySym = KeyTab then
    if st.raw ≠ [] then
      some ({ handled := true, commitText := getPreedit st }, initState)
    else Option.none
  else if ev.keySym = KeyDelete then
    if st.raw ≠ [] then
      some ({ handled := false, commitText := getPreedit st }, initState)
    else Option.none
  else Option.none

/-- `KeysymToRune`: ASCII printables and Latin-1 map to themselves;
keysyms above `0x01000000` decode by subtracting that offset; anything
else maps to 0 (dropped). -/
def keysymToRune (k : Nat) : Nat :=
  if 0x20 ≤ k ∧ k ≤ 0x7e then k
  else if 0xa0 ≤ k ∧ k ≤ 0xff then k
  else if 0x01000000 ≤ k then k - 0x01000000
  else 0

/-- `CompositionEngine.ProcessKey`: the per-event dispatch — special
keys, Control/Alt commit-and-passthrough, keysym decoding, and the
per-character pipeline. Returns the reply and the next session state. -/
def step (st : EngineState) (ev : KeyEvent) : ProcessResult × EngineState :=
  match handleSpecialKey st ev with
  | some rs => rs
  | Option.none =>
    if Nat.land ev.modifiers (ModControl + ModMod1) ≠ 0 then
      if st.raw ≠ [] then
        ({ handled := false, commitText := getPreedit st }, initState)
      else ({}, st)
    else
      let cp := keysymToRune ev.keySym
      if cp = 0 then ({}, st)
      else
        let st' := processKeyInternal st (Char.ofNat cp)
        ({ handled := true, preedit := getPreedit st' }, st')

/-- Feed a list of key events to a session. -/
def feedEvents (st : EngineState) (evs : List KeyEvent) : EngineState :=
  evs.foldl (fun s e => (step s e).2) st

/-- The key event for a printable character. -/
def charEvent (c : Char) : KeyEvent := { keySym := c.toNat, modifiers := 0 }

/-- Feed a string of printable keys to a fresh session. -/
def feedKeys (l : List Char) : EngineState :=
  feedEvents initState (l.map charEvent)

/-! ### Spec-side definitions (written from the specification's wording,
for refinement comparison with the source-derived definitions) -/

/-- From the spec's words: the closed onset set — single consonants
b c d đ g h k l m n p q r s t v x, digraphs ch gh gi kh ng nh ph qu th
tr, and the trigraph ngh. -/
def specInitials : List (List Char) :=
  [['b'], ['c'], ['d'], ['đ'], ['g'], ['h'], ['k'], ['l'], ['m'], ['n'],
   ['p'], ['q'], ['r'], ['s'], ['t'], ['v'], ['x'],
   ['c', 'h'], ['g', 'h'], ['g', 'i'], ['k', 'h'], ['n', 'g'], ['n', 'h'],
   ['p', 'h'], ['q', 'u'], ['t', 'h'], ['t', 'r'],
   ['n', 'g', 'h']]

/-- From the spec's words: the closed coda set
{c, ch, m, n, ng, nh, p, t, i, y, o, u}. -/
def specFinals : List (List Char) :=
  [['c'], ['c', 'h'], ['m'], ['n'], ['n', 'g'], ['n', 'h'], ['p'], ['t'],
   ['i'], ['y'], ['o'], ['u']]

/-- From the spec's words: the forbidden (onset, first nucleus vowel)
spelling combinations — c+{e,i,y}, k+{a,o,u}, g+e, ng+{e,i} and their
complements gh+{a,o,u}, ngh+{a,o,u}. -/
def specForbidden : List (List Char) :=
  [['c', 'e'], ['c', 'i'], ['c', 'y'],
   ['k', 'a'], ['k', 'o'], ['k', 'u'],
   ['g', 'e'],
   ['n', 'g', 'e'], ['n', 'g', 'i'],
   ['g', 'h', 'a'], ['g', 'h', 'o'], ['g', 'h', 'u'],
   ['n', 'g', 'h', 'a'], ['n', 'g', 'h', 'o'], ['n', 'g', 'h', 'u']]

/-- From the spec's words: the lowercased onset is empty or lies in the
closed onset set. -/
def specOnsetOK (o : List Char) : Bool :=
  o = [] ∨ o.map lowerChar ∈ specInitials

/-- From the spec's words: the lowercased coda is empty or lies in the
closed coda set. -/
def specCodaOK (c : List Char) : Bool :=
  c = [] ∨ c.map lowerChar ∈ specFinals

/-- From the spec's words: the (onset, first nucleus vowel) pair is not a
forbidden spelling combination. -/
def specSpellingOK (o n : List Char) : Bool :=
  match n with
  | [] => true
  | n0 :: _ => o.map lowerChar ++ [lowerChar n0] ∉ specForbidden

/-- From the spec's words: the first violated rule, in the order
no_vowel, invalid_initial, invalid_final, spelling_rule_violation
(empty when valid). -/
def specReason (o n c : List Char) : String :=
  if n = [] then "no_vowel"
  else if ¬ specOnsetOK o then "invalid_initial"
  else if ¬ specCodaOK c then "invalid_final"
  else if ¬ specSpellingOK o n then "spelling_rule_violation"
  else ""

/-- The Backspace key event. -/
def bsEvent : KeyEvent := { keySym := KeyBackspace, modifiers := 0 }

/-! ### Theorems for the claims -/

/-- C1: the claim states that from a reset default-Telex session the key
sequence n,g,u,o,w,i,f yields the preedit "người" with the grave tone on
ơ. The code instead yields "ngừơi": the run u,o,w is indeed parsed as
the nucleus ươ, but `findTonePosition` places the tone on the first
marked vowel ư, not on ơ. This theorem evaluates the engine at the
claimed input and exhibits the divergence. -/
theorem telex_nguowif_preedit :
    getPreedit (feedKeys "nguowif".toList) = "ngừơi".toList ∧
    getPreedit (feedKeys "nguowif".toList) ≠ "người".toList ∧
    (feedKeys "nguowif".toList).syllable.nucleus = ['ư', 'ơ', 'i'] := by
  decide

/-- C2: the claim states that with more than one marked nucleus letter
the tone placer selects the later (rightmost) marked letter. For the
nucleus ươ (both letters marked) the code returns index 0 — the earlier
letter ư — not index 1. -/
theorem findTonePosition_uo_selects_first :
    findTonePosition ['ư', 'ơ'] [] = 0 ∧
    isMarkedVowel 'ư' = true ∧ isMarkedVowel 'ơ' = true := by
  decide

/-- C3 counterexample: feeding s = a,a then t = a followed by |t| = 1
Backspace does not restore the state of feeding just s. The third `a`
triggers the double-key revert, which rewrites raw to a, breakMarker, a;
Backspace then pops the trailing `a`, leaving raw = [a, breakMarker] —
not the raw buffer [a, a] that feeding s alone produces. -/
theorem backspace_not_inverse_after_revert :
    (feedEvents (feedKeys "aaa".toList) [bsEvent]).raw ≠
      (feedKeys "aa".toList).raw ∧
    getPreedit (feedEvents (feedKeys "aaa".toList) [bsEvent]) ≠
      getPreedit (feedKeys "aa".toList) := by
  decide

/-- C4 counterexample: the claim states that a,s,s yields the preedit
"a" with the raw buffer "ass". In the code the second s takes the
double-key revert path for tones: it pops the recorded s from raw before
appending the new one, so raw is "as" (not "ass"), and the trailing
literal s is shown, so the preedit is "as" (not "a"). -/
theorem ass_preedit_not_a :
    getPreedit (feedKeys "ass".toList) ≠ "a".toList ∧
    (feedKeys "ass".toList).raw ≠ "ass".toList := by
  decide

/-- C4 amended: processing a,s,s from a reset Telex session yields the
preedit "as" with raw buffer "as" and the tone cleared: the second s
removes the tone applied by the first, the revert replaces the first s
in raw with the second, and the surviving s is displayed literally. -/
theorem ass_preedit_as :
    getPreedit (feedKeys "ass".toList) = "as".toList ∧
    (feedKeys "ass".toList).raw = "as".toList ∧
    (feedKeys "ass".toList).syllable.toneMark = ToneMark.none := by
  decide

/-- C8: the output composer is total (every function in this embedding
is a total Lean definition), and applying a tone to a letter that has no
entry in the (letter, tone) table returns the letter unchanged rather
than failing. -/
theorem applyTone_fallback_unmarked (c : Char) (t : ToneMark)
    (h : unicodeVowelTones c = Option.none) : ApplyTone c t = [c] := by
  simp [ApplyTone, h]

/-- Witness for C8's theorem at the consonant b with the acute tone. -/
theorem applyTone_fallback_unmarked_witness :
    ApplyTone 'b' ToneMark.sac = ['b'] :=
  applyTone_fallback_unmarked 'b' ToneMark.sac rfl

/-- C6: for every session state (and any modifier bits), processing the
Space key returns handled = true, commits the current preedit followed
by exactly one space, leaves the returned preedit empty, and resets the
buffer; since the preedit of an empty buffer is empty, on an empty
buffer it commits exactly a single space. -/
theorem space_commits_preedit_plus_space (st : EngineState) (mods : Nat) :
    step st { keySym := KeySpace, modifiers := mods } =
      ({ handled := true, commitText := getPreedit st ++ [' '], preedit := [] },
        initState) ∧
    (st.raw = [] → getPreedit st ++ [' '] = [' ']) := by
  constructor
  · rfl
  · intro h
    simp [getPreedit, h]

/-- Witness for C6's theorem: on the reset (empty-buffer) session, Space
commits exactly one space and leaves the session reset. -/
theorem space_commits_preedit_plus_space_witness :
    getPreedit initState ++ [' '] = [' '] :=
  (space_commits_preedit_plus_space initState 0).2 rfl

/-- C7 counterexample: the claim states that Enter with a non-empty
buffer commits and returns handled = true. The code keys this decision
on the preedit, not the buffer: after the keysym 0x0100200B (the
zero-width space, decoded as a literal character) the raw buffer is
non-empty but the preedit filters the character out, so Enter returns
handled = false with no commit. -/
theorem enter_nonempty_buffer_not_handled :
    (feedEvents initState [{ keySym := 0x0100200B, modifiers := 0 }]).raw ≠ [] ∧
    (step (feedEvents initState [{ keySym := 0x0100200B, modifiers := 0 }])
        { keySym := KeyReturn, modifiers := 0 }).1.handled = false ∧
    (step (feedEvents initState [{ keySym := 0x0100200B, modifiers := 0 }])
        { keySym := KeyReturn, modifiers := 0 }).1.commitText = [] := by
  decide

/-- C7 amended: processing Enter with a non-empty preedit commits exactly
the current preedit with no newline appended, resets the buffer, and
returns handled = true; with an empty preedit (in particular, with an
empty buffer) it returns handled = false with empty commit and empty
preedit and leaves the session state unchanged. -/
theorem enter_commits_iff_preedit_nonempty (st : EngineState) :
    (getPreedit st ≠ [] →
      step st { keySym := KeyReturn, modifiers := 0 } =
        ({ handled := true, commitText := getPreedit st, preedit := [] },
          initState)) ∧
    (getPreedit st = [] →
      step st { keySym := KeyReturn, modifiers := 0 } = ({}, st)) := by
  have hland : Nat.land 0 12 = 0 := rfl
  by_cases h : getPreedit st = [] <;>
    simp [step, handleSpecialKey, h, KeyReturn, KeyBackspace, KeySpace,
      KeyEscape, KeyTab, KeyDelete, keysymToRune, ModControl, ModMod1, hland]

/-- Witness for C7's amended theorem: after typing the letter a the
preedit is non-empty and Enter commits it and resets the session. -/
theorem enter_commits_iff_preedit_nonempty_witness :
    step (feedKeys "a".toList) { keySym := KeyReturn, modifiers := 0 } =
      ({ handled := true, commitText := getPreedit (feedKeys "a".toList),
         preedit := [] }, initState) :=
  (enter_commits_iff_preedit_nonempty (feedKeys "a".toList)).1 (by decide)

/-- C9: after every ProcessKey call that returns a non-empty commit, the
session is reset: the raw buffer and the parsed syllable are empty and
last_transform has kind none (the next state is exactly the initial
state). -/
theorem nonempty_commit_resets (st : EngineState) (ev : KeyEvent)
    (h : (step st ev).1.commitText ≠ []) :
    (step st ev).2 = initState := by
  unfold step handleSpecialKey handleBackspace at h ⊢
  split_ifs at h ⊢ <;> (try simp_all) <;> (split at h <;> simp_all)

/-- Witness for C9's theorem: Space on the reset session commits a
single space (a non-empty commit) and the resulting state is the initial
state. -/
theorem nonempty_commit_resets_witness :
    (step initState { keySym := KeySpace, modifiers := 0 }).2 = initState :=
  nonempty_commit_resets initState { keySym := KeySpace, modifiers := 0 }
    (by decide)

/-- C10: every ProcessResult returned by ProcessKey has at most one of
commit and preedit non-empty: no keystroke ever returns both. -/
theorem at_most_one_of_commit_preedit (st : EngineState) (ev : KeyEvent) :
    (step st ev).1.commitText = [] ∨ (step st ev).1.preedit = [] := by
  unfold step handleSpecialKey handleBackspace
  split_ifs <;> (try simp_all) <;> (split <;> simp_all)


/-- `replaceDJ` is the identity on every character other than đ. -/
theorem replaceDJ_of_ne (a : Char) (h : ¬ a = 'đ') : replaceDJ a = a := if_neg h

/-- After the đ→d replacement, `isValidInitial` accepts a non-empty
string exactly when the string itself lies in the `validInitials` set. -/
theorem isValidInitial_map_replaceDJ (l : List Char) (h : l ≠ []) :
    isValidInitial (l.map replaceDJ) = true ↔ l ∈ validInitials := by
  match l with
  | [a] =>
    by_cases ha : a = 'đ'
    · subst ha; decide
    · simp [isValidInitial, validInitials, singleConsonantFallback,
        replaceDJ_of_ne a ha, ha]
  | [a, b] =>
    by_cases ha : a = 'đ' <;> by_cases hb : b = 'đ' <;>
      simp_all [isValidInitial, validInitials, singleConsonantFallback,
        replaceDJ]
  | [a, b, c] =>
    by_cases ha : a = 'đ' <;> by_cases hb : b = 'đ' <;> by_cases hc : c = 'đ' <;>
      simp_all [isValidInitial, validInitials, singleConsonantFallback,
        replaceDJ]
  | a :: b :: c :: d :: rest =>
    simp [isValidInitial, validInitials, singleConsonantFallback]

/-- The onset-failure condition of `ValidateVietnamese` is the negation
of the spec-side onset condition. -/
theorem onset_fail_iff (o : List Char) :
    (o ≠ [] ∧ ¬ isValidInitial ((o.map lowerChar).map replaceDJ) = true) ↔
      ¬ specOnsetOK o = true := by
  by_cases ho : o = []
  · simp [ho, specOnsetOK]
  · have hmap := isValidInitial_map_replaceDJ (o.map lowerChar) (by simpa using ho)
    rw [List.map_map] at hmap
    have hIS : specInitials = validInitials := rfl
    simp [specOnsetOK, ho, hmap, hIS]

/-- The coda-failure condition of `ValidateVietnamese` is the negation of
the spec-side coda condition. -/
theorem coda_fail_iff (c : List Char) :
    (c ≠ [] ∧ c.map lowerChar ∉ validFinals) ↔ ¬ specCodaOK c = true := by
  have hfin : ∀ l : List Char, l ∈ validFinals ↔ l ∈ specFinals := by
    intro l
    simp [validFinals, specFinals]
    tauto
  by_cases hc : c = []
  · simp [hc, specCodaOK]
  · simp [specCodaOK, hc, hfin]

/-- The spelling-failure condition of `ValidateVietnamese` is the
negation of the spec-side spelling condition. -/
theorem spelling_fail_iff (o : List Char) (n0 : Char) (nt : List Char) :
    (o ≠ [] ∧ o.map lowerChar ++ [lowerChar ((n0 :: nt).headD ' ')] ∈ spellingRules) ↔
      ¬ specSpellingOK o (n0 :: nt) = true := by
  have hSR : specForbidden = spellingRules := rfl
  by_cases ho : o = []
  · simp [ho, specSpellingOK, spellingRules, hSR]
  · simp [specSpellingOK, ho, hSR]

/-- C5: the validator returns valid exactly when the nucleus is
non-empty, the lowercased onset is empty or in the closed onset set, the
lowercased coda is empty or in the closed coda set, and the
(onset, first nucleus vowel) pair is not a forbidden combination; and the
reason names the first violated rule in the order no_vowel,
invalid_initial, invalid_final, spelling_rule_violation. -/
theorem validateVietnamese_characterization (o n c : List Char) :
    ((ValidateVietnamese o n c).valid = true ↔
      (n ≠ [] ∧ specOnsetOK o = true ∧ specCodaOK c = true ∧
        specSpellingOK o n = true)) ∧
    (ValidateVietnamese o n c).reason = specReason o n c := by
  match n with
  | [] => simp [ValidateVietnamese, specReason]
  | n0 :: nt =>
    have h1 := onset_fail_iff o
    have h2 := coda_fail_iff c
    have h3 := spelling_fail_iff o n0 nt
    simp only [ValidateVietnamese, specReason]
    split_ifs with g1 g2 g3 g4 <;> simp_all



/-- One step on a cons of events feeds the first event and continues. -/
theorem feedEvents_cons (st : EngineState) (e : KeyEvent) (evs : List KeyEvent) :
    feedEvents st (e :: evs) = feedEvents (step st e).2 evs := rfl

/-- For a printable non-space ASCII key, ProcessKey dispatches to the
per-character pipeline. -/
theorem step_char (st : EngineState) (c : Char)
    (h1 : 0x21 ≤ c.toNat) (h2 : c.toNat ≤ 0x7e) :
    step st (charEvent c) =
      ({ handled := true, preedit := getPreedit (processKeyInternal st c) },
        processKeyInternal st c) := by
  have hb : ¬ c.toNat = KeyBackspace := by simp only [KeyBackspace]; omega
  have hsp : ¬ c.toNat = KeySpace := by simp only [KeySpace]; omega
  have hre : ¬ c.toNat = KeyReturn := by simp only [KeyReturn]; omega
  have hes : ¬ c.toNat = KeyEscape := by simp only [KeyEscape]; omega
  have hta : ¬ c.toNat = KeyTab := by simp only [KeyTab]; omega
  have hde : ¬ c.toNat = KeyDelete := by simp only [KeyDelete]; omega
  have hland : Nat.land 0 (ModControl + ModMod1) = 0 := rfl
  have hcp : keysymToRune c.toNat = c.toNat := by
    simp only [keysymToRune]
    rw [if_pos]
    exact ⟨by omega, h2⟩
  have hnz : ¬ c.toNat = 0 := by omega
  simp [step, handleSpecialKey, charEvent, hb, hsp, hre, hes, hta, hde,
    hland, hcp, hnz, Char.ofNat_toNat]

/-- Feeding printable keys from any state equals folding the internal
per-character pipeline over the characters. -/
theorem feedEvents_map_charEvent (st : EngineState) (l : List Char)
    (h : ∀ x ∈ l, 0x21 ≤ x.toNat ∧ x.toNat ≤ 0x7e) :
    feedEvents st (l.map charEvent) = l.foldl processKeyInternal st := by
  induction l generalizing st with
  | nil => rfl
  | cons a tl ih =>
    have ha := h a (by simp)
    rw [List.map_cons, feedEvents_cons, step_char st a ha.1 ha.2,
      List.foldl_cons]
    exact ih (processKeyInternal st a) (fun x hx => h x (by simp [hx]))

/-- Backspaces on a replayed buffer whose raw equals the replayed
characters walk back one character per Backspace. -/
theorem bs_fold (m : Nat) (u : List Char)
    (hraw : ∀ k ≤ u.length, (replay (u.take k)).raw = u.take k) :
    feedEvents (replay u) (List.replicate m bsEvent) =
      replay (u.take (u.length - m)) := by
  induction m generalizing u with
  | zero => simp [feedEvents, List.take_length]
  | succ m ih =>
    have hr : (replay u).raw = u := by
      simpa [List.take_length] using hraw u.length le_rfl
    by_cases hu : u = []
    · subst hu
      have hstep : (step (replay ([] : List Char)) bsEvent).2 = replay [] := by
        simp [step, handleSpecialKey, bsEvent, KeyBackspace, handleBackspace, hr]
      rw [List.replicate_succ, feedEvents_cons, hstep, ih [] (by decide)]
      simp
    · have hstep : (step (replay u) bsEvent).2 = replay u.dropLast := by
        simp [step, handleSpecialKey, bsEvent, KeyBackspace, handleBackspace,
          hr, hu]
      have hpos : 0 < u.length := List.length_pos.2 hu
      have hd : u.dropLast = u.take (u.length - 1) := List.dropLast_eq_take u
      have hlen : u.dropLast.length = u.length - 1 := List.length_dropLast u
      have hpre : ∀ k ≤ u.dropLast.length,
          (replay (u.dropLast.take k)).raw = u.dropLast.take k := by
        intro k hk
        rw [hlen] at hk
        have htk : u.dropLast.take k = u.take k := by
          rw [hd, List.take_take]
          congr 1
          omega
        rw [htk]
        exact hraw k (by omega)
      rw [List.replicate_succ, feedEvents_cons, hstep, ih u.dropLast hpre]
      congr 1
      rw [hd, List.take_take]
      congr 1
      rw [List.length_take]
      omega

/-- C3 amended: for every input sequence s and suffix t of printable
non-space keys such that replaying each prefix leaves the raw buffer
equal to that prefix verbatim (no transformation rewrote raw — the
break-marker revert path violates this), feeding s then t and then |t|
Backspaces leaves the session in exactly the state (raw, parsed
syllable and last_transform included) of feeding just s from reset. -/
theorem backspace_inverse_of_literal_raw (s t : List Char)
    (hch : ∀ x ∈ s ++ t, 0x21 ≤ x.toNat ∧ x.toNat ≤ 0x7e)
    (hraw : ∀ k ≤ (s ++ t).length,
      (replay ((s ++ t).take k)).raw = (s ++ t).take k) :
    feedEvents (feedKeys (s ++ t)) (List.replicate t.length bsEvent) =
      feedKeys s := by
  have h1 : feedKeys (s ++ t) = replay (s ++ t) :=
    feedEvents_map_charEvent initState (s ++ t) hch
  have h2 : feedKeys s = replay s :=
    feedEvents_map_charEvent initState s (fun x hx => hch x (by simp [hx]))
  rw [h1, h2, bs_fold t.length (s ++ t) hraw]
  congr 1
  rw [List.length_append]
  have hls : s.length + t.length - t.length = s.length := by omega
  rw [hls]
  exact List.take_left s t

/-- Witness for C3's amended theorem at s = a,b and t = c. -/
theorem backspace_inverse_of_literal_raw_witness :
    feedEvents (feedKeys (['a', 'b'] ++ ['c'])) (List.replicate 1 bsEvent) =
      feedKeys ['a', 'b'] :=
  backspace_inverse_of_literal_raw ['a', 'b'] ['c'] (by decide) (by decide)


end GoViet
